import Mathlib

set_option maxHeartbeats 1000000

/-!
Verification of the turn-based agent loop of the voicebot repository.

The development shallowly embeds the controller `_palm_react` of `main.py`
together with its conversation store (`save_msgs` / `get_msgs`) and the
text-marker parsing it performs on model responses.  Python strings are
embedded as Lean `String` / `List Char`; the Python standard library pieces
the code calls (`str.split`, `str.strip`, `repr`, `json.dump`, `json.load`)
are modelled character-for-character on the inputs the program produces.
The model endpoint and Python's `eval` are external effects and enter the
embedding as explicit function parameters (oracles).
-/

/-- Python `str.strip()` whitespace test, restricted to the ASCII range
(code points 9-13, 28-31 and 32); the program only strips ASCII text. -/
def pyIsSpace (c : Char) : Bool :=
  (9 ≤ c.toNat && c.toNat ≤ 13) || c.toNat == 32 || (28 ≤ c.toNat && c.toNat ≤ 31)

/-- Python `s.strip()` over character lists: drop whitespace from both ends. -/
def pyStripL (l : List Char) : List Char :=
  ((l.dropWhile pyIsSpace).reverse.dropWhile pyIsSpace).reverse

/-- Python `s.strip(chars)` over character lists: drop any of the given
characters from both ends. -/
def stripCharsL (cs : List Char) (l : List Char) : List Char :=
  ((l.dropWhile (fun c => decide (c ∈ cs))).reverse.dropWhile
    (fun c => decide (c ∈ cs))).reverse

/-- One chat message as persisted by `main.py`: a dict with keys
`author` and `content`, in that insertion order. -/
structure Msg where
  author : String
  content : String
deriving DecidableEq, Repr

/-- Lower-case hexadecimal digit, as produced by CPython `"%04x"`. -/
def hexDigit (n : Nat) : Char :=
  match n with
  | 0 => '0' | 1 => '1' | 2 => '2' | 3 => '3' | 4 => '4'
  | 5 => '5' | 6 => '6' | 7 => '7' | 8 => '8' | 9 => '9'
  | 10 => 'a' | 11 => 'b' | 12 => 'c' | 13 => 'd' | 14 => 'e' | _ => 'f'

/-- Four lower-case hex digits of `n % 65536`, most significant first. -/
def hex4 (n : Nat) : List Char :=
  [hexDigit (n / 4096 % 16), hexDigit (n / 256 % 16), hexDigit (n / 16 % 16), hexDigit (n % 16)]

/-- Models CPython `json` escaping of one character with the default
`ensure_ascii=True`: backslash, double quote and the short control escapes
are written with a backslash, other ASCII printables are literal, and
everything else becomes `\uXXXX` (a surrogate pair above U+FFFF). -/
def jEscChar (c : Char) : List Char :=
  if c = '"' then ['\\', '"']
  else if c = '\\' then ['\\', '\\']
  else if c.toNat = 8 then ['\\', 'b']
  else if c.toNat = 9 then ['\\', 't']
  else if c.toNat = 10 then ['\\', 'n']
  else if c.toNat = 12 then ['\\', 'f']
  else if c.toNat = 13 then ['\\', 'r']
  else if 32 ≤ c.toNat ∧ c.toNat ≤ 126 then [c]
  else if c.toNat < 65536 then ['\\', 'u'] ++ hex4 c.toNat
  else ['\\', 'u'] ++ hex4 (55296 + (c.toNat - 65536) / 1024) ++
    ['\\', 'u'] ++ hex4 (56320 + (c.toNat - 65536) % 1024)

/-- JSON escaping of a whole string (as a character list). -/
def jEscList : List Char → List Char
  | [] => []
  | c :: s => jEscChar c ++ jEscList s

/-- Literal text `{"author": "` opening a serialized message object. -/
def kAuthor : List Char :=
  ['\x7b', '"', 'a', 'u', 't', 'h', 'o', 'r', '"', ':', ' ', '"']

/-- Literal text `, "content": "` between the two fields of a message. -/
def kContent : List Char :=
  [',', ' ', '"', 'c', 'o', 'n', 't', 'e', 'n', 't', '"', ':', ' ', '"']

/-- Serialized form of one message, exactly as `json.dump` writes the dict
`{"author": ..., "content": ...}` with its default separators. -/
def dumpMsgChars (m : Msg) : List Char :=
  kAuthor ++ jEscList m.author.data ++ ['"'] ++ kContent ++ jEscList m.content.data ++ ['"', '\x7d']

/-- Serialized tail of a message list: either the closing bracket or
`, ` followed by the next object. -/
def tailDump : List Msg → List Char
  | [] => [']']
  | m :: ms => [',', ' '] ++ dumpMsgChars m ++ tailDump ms

/-- Serialized JSON array for a message list. -/
def dumpChars : List Msg → List Char
  | [] => ['[', ']']
  | m :: ms => '[' :: (dumpMsgChars m ++ tailDump ms)

/-- Models `json.dump(msgs, f)` from `save_msgs` in `main.py`: the exact
text the CPython `json` encoder emits for the message list. -/
def jsonDumpMsgs (l : List Msg) : String := ⟨dumpChars l⟩

/-- Value of one hexadecimal digit (either case), as `int(_, 16)` accepts. -/
def hexVal (c : Char) : Option Nat :=
  if 48 ≤ c.toNat ∧ c.toNat ≤ 57 then some (c.toNat - 48)
  else if 97 ≤ c.toNat ∧ c.toNat ≤ 102 then some (c.toNat - 87)
  else if 65 ≤ c.toNat ∧ c.toNat ≤ 70 then some (c.toNat - 55)
  else none

/-- Value of a four-digit hexadecimal escape body. -/
def hex4val (a b c d : Char) : Option Nat :=
  match hexVal a, hexVal b, hexVal c, hexVal d with
  | some x, some y, some z, some w => some (x * 4096 + y * 256 + z * 16 + w)
  | _, _, _, _ => none

/-- Models one step of CPython `json`'s string scanner (strict mode):
returns `none` on a malformed escape or a raw control character,
`some (none, rest)` at the closing quote, and `some (some c, rest)` after
decoding one character; every successful step consumes at least one input
character.  Lone surrogate escapes are rejected here; CPython would keep
them, but no string this program writes ever contains one. -/
def readUnit : List Char → Option (Option Char × List Char)
  | [] => none
  | c :: r =>
    if c = '"' then some (none, r)
    else if c = '\\' then
      match r with
      | [] => none
      | e :: r1 =>
        if e = 'u' then
          match r1 with
          | a :: b :: c2 :: d :: r2 =>
            match hex4val a b c2 d with
            | none => none
            | some n =>
              if 55296 ≤ n ∧ n < 56320 then
                match r2 with
                | s1 :: s2 :: e1 :: f1 :: g1 :: h1 :: r3 =>
                  if s1 = '\\' ∧ s2 = 'u' then
                    match hex4val e1 f1 g1 h1 with
                    | none => none
                    | some m =>
                      if 56320 ≤ m ∧ m < 57344 then
                        some (some (Char.ofNat (65536 + (n - 55296) * 1024 + (m - 56320))), r3)
                      else none
                  else none
                | _ => none
              else if 56320 ≤ n ∧ n < 57344 then none
              else some (some (Char.ofNat n), r2)
          | _ => none
        else if e = '"' then some (some '"', r1)
        else if e = '\\' then some (some '\\', r1)
        else if e = '/' then some (some '/', r1)
        else if e = 'b' then some (some '\x08', r1)
        else if e = 'f' then some (some '\x0c', r1)
        else if e = 'n' then some (some '\n', r1)
        else if e = 'r' then some (some '\x0d', r1)
        else if e = 't' then some (some '\t', r1)
        else none
    else if 32 ≤ c.toNat then some (some c, r) else none

/-- Decoded string body, iterating `readUnit` until the closing quote.
The fuel argument only bounds the number of scanner steps; since every
step consumes at least one character, fuel equal to the input length
(see `parseJStr`) never cuts a successful parse short. -/
def parseJStrF : Nat → List Char → Option (List Char × List Char)
  | 0, _ => none
  | fuel + 1, l =>
    (readUnit l).bind fun u =>
    match u with
    | (none, r) => some ([], r)
    | (some c, r) => (parseJStrF fuel r).bind fun p => some (c :: p.1, p.2)

/-- JSON string body scanner at adequate fuel. -/
def parseJStr (l : List Char) : Option (List Char × List Char) :=
  parseJStrF l.length l

/-- Match a literal prefix, returning the remainder. -/
def stripPref : List Char → List Char → Option (List Char)
  | [], l => some l
  | _ :: _, [] => none
  | p :: ps, c :: cs => if c = p then stripPref ps cs else none

/-- Parse one serialized message object in the canonical form the encoder
produces. -/
def parseMsg (l : List Char) : Option (Msg × List Char) :=
  (stripPref kAuthor l).bind fun l1 =>
  (parseJStr l1).bind fun p =>
  (stripPref kContent p.2).bind fun l3 =>
  (parseJStr l3).bind fun q =>
  match q.2 with
  | '\x7d' :: l5 => some (⟨⟨p.1⟩, ⟨q.1⟩⟩, l5)
  | _ => none

/-- Parse the rest of the array after at least one element: either the
closing bracket or `, ` and a further object.  Each iteration consumes at
least one character, so fuel equal to the input length (see `parseMore`)
never cuts a successful parse short. -/
def parseMoreF : Nat → List Char → Option (List Msg × List Char)
  | 0, _ => none
  | fuel + 1, l =>
    match l with
    | ']' :: r => some ([], r)
    | ',' :: ' ' :: r =>
      (parseMsg r).bind fun p =>
      (parseMoreF fuel p.2).bind fun q => some (p.1 :: q.1, q.2)
    | _ => none

/-- Array-tail scanner at adequate fuel. -/
def parseMore (l : List Char) : Option (List Msg × List Char) :=
  parseMoreF l.length l

/-- Parse the array body after the opening bracket, demanding that the
input ends exactly at the closing bracket (CPython raises on extra data). -/
def parseArr (l : List Char) : Option (List Msg) :=
  if l = [']'] then some []
  else
    (parseMsg l).bind fun p =>
    (parseMore p.2).bind fun q =>
    if q.2 = [] then some (p.1 :: q.1) else none

/-- Models `json.load(f)` from `get_msgs` in `main.py`, on the canonical
array-of-message-objects text that `json.dump` produces (the only shape
the program ever persists); any other content is a decode failure. -/
def jsonLoadMsgs (s : String) : Option (List Msg) :=
  match s.data with
  | '[' :: rest => parseArr rest
  | _ => none

/-- Python exception kinds that matter to the controller's control flow
(`SyntaxError`, `NameError`, `TypeError`, `AssertionError`, `OSError`,
`json.JSONDecodeError`, and a catch-all for any other raise). -/
inductive PyExc
  | synError
  | nameError
  | typeError
  | assertError
  | osError
  | jsonDecodeError
  | otherError
deriving DecidableEq, Repr

/-- Result of evaluating the extracted action-call text with Python
`eval`: either the observation (as rendered into the f-string by `str`)
or a raised exception. -/
inductive EvalResult
  | ok (obs : String)
  | exc (e : PyExc)
deriving DecidableEq, Repr

/-- Models `get_msgs` of `main.py`: the file state is `none` when
`msgs.json` does not exist, in which case `FileNotFoundError` is caught
and the empty list returned; any other content goes through `json.load`,
whose decode failure propagates out of the function uncaught. -/
def getMsgs (fs : Option String) : Except PyExc (List Msg) :=
  match fs with
  | none => Except.ok []
  | some s =>
    match jsonLoadMsgs s with
    | some l => Except.ok l
    | none => Except.error PyExc.jsonDecodeError

/-- Models `save_msgs` of `main.py` together with the possibility that the
write itself fails (`writeOk = false`, e.g. a full disk raising `OSError`);
on success the file holds exactly the serialized message list. -/
def saveMsgs (writeOk : Bool) (msgs : List Msg) : Except PyExc (Option String) :=
  if writeOk then Except.ok (some (jsonDumpMsgs msgs)) else Except.error PyExc.osError

/-- Models a successful `open("msgs.json", "w")` followed by
`json.dump(msgs, f)` with the prior file state made explicit: the mode-w
open truncates, so the resulting content never depends on `prior`. -/
def saveMsgsOn (prior : Option String) (msgs : List Msg) : Option String :=
  match prior with
  | _ => some (jsonDumpMsgs msgs)

/-- Models the `msgs.json` content left behind when the process stops
after `open(.., "w")` has truncated the file and only the first `k`
characters of `json.dump`'s output have reached the disk. -/
def savePartial (msgs : List Msg) (k : Nat) : String :=
  ⟨(jsonDumpMsgs msgs).data.take k⟩

/-- Registered action names: the `FUNCTIONS` list of `main.py`. -/
def FUNCTIONS : List String :=
  ["gcal_add_event", "gcal_get_upcoming_events", "gcal_delete_event",
   "gcal_update_event", "google_search", "send_email", "get_unread_emails"]

/-- Models CPython `repr` escaping of one character given the chosen
delimiter `q`, exact for ASCII text; non-ASCII printable characters are
escaped here where CPython prints them literally, and no theorem below
evaluates `repr` outside ASCII. -/
def reprEsc (q : Char) (c : Char) : List Char :=
  if c = '\\' then ['\\', '\\']
  else if c = q then ['\\', q]
  else if c.toNat = 10 then ['\\', 'n']
  else if c.toNat = 13 then ['\\', 'r']
  else if c.toNat = 9 then ['\\', 't']
  else if 32 ≤ c.toNat ∧ c.toNat ≤ 126 then [c]
  else if c.toNat < 256 then ['\\', 'x', hexDigit (c.toNat / 16 % 16), hexDigit (c.toNat % 16)]
  else if c.toNat < 65536 then ['\\', 'u'] ++ hex4 c.toNat
  else ['\\', 'U'] ++ hex4 (c.toNat / 65536) ++ hex4 (c.toNat % 65536)

/-- Character-wise repr escaping of a string body. -/
def reprEscList (q : Char) : List Char → List Char
  | [] => []
  | c :: s => reprEsc q c ++ reprEscList q s

/-- Models CPython `repr` of a str: delimiter `'` unless the text holds a
single quote and no double quote, in which case `"`. -/
def pyReprL (l : List Char) : List Char :=
  if '\x27' ∈ l ∧ '"' ∉ l then '"' :: reprEscList '"' l ++ ['"']
  else '\x27' :: reprEscList '\x27' l ++ ['\x27']

/-- Models Python `str.split(sep)` for a non-empty separator: scan the
input left to right, cutting at each non-overlapping occurrence of `sep`.
The fuel argument only bounds the scan steps; each step consumes at least
one character, so fuel equal to the input length plus one (see `pySplit`)
never runs out on a non-empty separator. -/
def pySplitF (sep : List Char) : Nat → List Char → List Char → List (List Char)
  | 0, l, acc => [acc.reverse ++ l]
  | fuel + 1, l, acc =>
    match l with
    | [] => [acc.reverse]
    | c :: rest =>
      match stripPref sep l with
      | some rem => acc.reverse :: pySplitF sep fuel rem []
      | none => pySplitF sep fuel rest (c :: acc)

/-- Python `s.split(sep)` at adequate fuel. -/
def pySplit (s sep : String) : List String :=
  (pySplitF sep.data (s.data.length + 1) s.data []).map (fun l => ⟨l⟩)

/-- Text between the last `Action: ` marker and the first following
`<< PAUSE >>` marker, as `_palm_react` computes it with
`response.split("Action: ")[-1].split("<< PAUSE >>")[0]`; when a marker is
absent the corresponding split leaves the text whole. -/
def betweenMarkers (r : String) : List Char :=
  ((pySplit ((pySplit r "Action: ").getLastD "") "<< PAUSE >>").headD "").data

/-- Models lines 260-261 of `main.py`: the code string handed to `eval`,
i.e. the between-marker text stripped of whitespace, passed through
`repr`, then stripped of single quotes and then of double quotes. -/
def extractCode (r : String) : String :=
  ⟨stripCharsL ['"'] (stripCharsL ['\x27'] (pyReprL (pyStripL (betweenMarkers r))))⟩

/-- Extraction as the specification words it, for comparison with
`extractCode`: the between-marker text trimmed of surrounding whitespace
and surrounding quote characters, otherwise untouched. -/
def specExtract (r : String) : String :=
  ⟨stripCharsL ['\x27', '"'] (pyStripL (betweenMarkers r))⟩

/-- The code string handed to `eval` when the response contains neither
marker: the whole response, whitespace-stripped and repr-processed. -/
def wholeCode (r : String) : String :=
  ⟨stripCharsL ['"'] (stripCharsL ['\x27'] (pyReprL (pyStripL r.data)))⟩

/-- Models `response.split("Answer:")[-1].strip()` (line 293): the text
after the last `Answer:` marker, whitespace-trimmed; this is the whole
trimmed response when the marker is absent. -/
def answerOf (r : String) : String :=
  ⟨pyStripL ((pySplit r "Answer:").getLastD "").data⟩

/-- Models the assistant message built on the successful-action path
(lines 277-281): the response up to `<< PAUSE >>`, stripped, then the
pause marker again and the serialized observation line. -/
def pauseTrace (r : String) (obs : String) : String :=
  ⟨pyStripL ((pySplit r "<< PAUSE >>").headD "").data⟩ ++ "\n<< PAUSE >>\n" ++
    "Observation: " ++ obs

/-- Observation text of a successful evaluation, empty for exceptions. -/
def obsOf (res : EvalResult) : String :=
  match res with
  | EvalResult.ok o => o
  | EvalResult.exc _ => ""

/-- Models `_palm_react` of `main.py` for one turn.  `chat` is the model
endpoint `_palm_chat` as a pure oracle from prompt and history to response
text, `evalFn` is Python `eval` in the module namespace, `writeOk` states
whether the final file write succeeds, `fs` is the prior content of
`msgs.json` (`none` = missing) and `prompt` the user utterance.  Returns
the answer string, the resulting file state and the saved history, or the
exception that aborts the turn.  Only `SyntaxError` and `NameError` from
`eval` are caught; every other exception propagates. -/
def palmReact (chat : String → List Msg → String) (evalFn : String → EvalResult)
    (writeOk : Bool) (fs : Option String) (prompt : String) :
    Except PyExc (String × Option String × List Msg) :=
  match getMsgs fs with
  | Except.error e => Except.error e
  | Except.ok history =>
    let response := chat prompt history
    match evalFn (extractCode response) with
    | EvalResult.exc PyExc.synError | EvalResult.exc PyExc.nameError =>
      let hist2 := history ++ [⟨"user", prompt⟩, ⟨"assistant", response⟩]
      match saveMsgs writeOk hist2 with
      | Except.error e => Except.error e
      | Except.ok fs2 => Except.ok (answerOf response, fs2, hist2)
    | EvalResult.exc e => Except.error e
    | EvalResult.ok obs =>
      let hist2 := history ++ [⟨"user", prompt⟩, ⟨"assistant", pauseTrace response obs⟩]
      let response2 := chat "Answer:" hist2
      let hist3 := hist2 ++ [⟨"user", "Answer:"⟩, ⟨"assistant", response2⟩]
      match saveMsgs writeOk hist3 with
      | Except.error e => Except.error e
      | Except.ok fs2 => Except.ok (answerOf response2, fs2, hist3)

theorem charValidCases (c : Char) : c.toNat < 55296 ∨ (57344 ≤ c.toNat ∧ c.toNat < 1114112) := by
  have h := c.valid
  simp only [isValidChar, UInt32.lt_def, BitVec.lt_def] at h
  rcases h with h | ⟨h1, h2⟩
  · left; exact h
  · right; exact ⟨h1, h2⟩

theorem char_eq_ofNat (ch : Char) (n : Nat) (h : ch.toNat = n) : ch = Char.ofNat n := by
  rw [← h, Char.ofNat_toNat]

theorem hexVal_hexDigit : ∀ k, k < 16 → hexVal (hexDigit k) = some k := by decide

theorem hex4val_hex4 (n : Nat) (h : n < 65536) :
    hex4val (hexDigit (n / 4096 % 16)) (hexDigit (n / 256 % 16)) (hexDigit (n / 16 % 16))
      (hexDigit (n % 16)) = some n := by
  have h1 := hexVal_hexDigit (n / 4096 % 16) (by omega)
  have h2 := hexVal_hexDigit (n / 256 % 16) (by omega)
  have h3 := hexVal_hexDigit (n / 16 % 16) (by omega)
  have h4 := hexVal_hexDigit (n % 16) (by omega)
  unfold hex4val
  rw [h1, h2, h3, h4]
  simp only [Option.some.injEq]
  omega

theorem readUnit_u4 (a b c d : Char) (r : List Char) (n : Nat)
    (ha : hex4val a b c d = some n)
    (h1 : ¬(55296 ≤ n ∧ n < 56320)) (h2 : ¬(56320 ≤ n ∧ n < 57344)) :
    readUnit ('\\' :: 'u' :: a :: b :: c :: d :: r) = some (some (Char.ofNat n), r) := by
  simp only [readUnit]
  rw [ha]
  simp only [if_true, and_self, ite_true]
  rw [if_neg h1, if_neg h2]
  rw [if_neg (show ¬ ('\\' : Char) = '"' by decide)]

theorem readUnit_surr6 (a b c d s1 s2 e1 f1 g1 h1 : Char) (r : List Char) (n m : Nat)
    (ha : hex4val a b c d = some n) (hb : hex4val e1 f1 g1 h1 = some m)
    (hn : 55296 ≤ n ∧ n < 56320) (hm : 56320 ≤ m ∧ m < 57344) :
    readUnit ('\\' :: 'u' :: a :: b :: c :: d :: '\\' :: 'u' :: e1 :: f1 :: g1 :: h1 :: r) =
      some (some (Char.ofNat (65536 + (n - 55296) * 1024 + (m - 56320))), r) := by
  simp only [readUnit]
  rw [ha, hb]
  simp only [if_true, and_self, ite_true]
  rw [if_pos hn, if_pos hm]
  rw [if_neg (show ¬ ('\\' : Char) = '"' by decide)]

theorem readUnit_esc (ch : Char) (r : List Char) :
    readUnit (jEscChar ch ++ r) = some (some ch, r) := by
  have hv := charValidCases ch
  unfold jEscChar
  split_ifs with h1 h2 h3 h4 h5 h6 h7 h8 h9
  · subst h1; rfl
  · subst h2; rfl
  · have : ch = Char.ofNat 8 := char_eq_ofNat ch 8 h3
    subst this; rfl
  · have : ch = Char.ofNat 9 := char_eq_ofNat ch 9 h4
    subst this; rfl
  · have : ch = Char.ofNat 10 := char_eq_ofNat ch 10 h5
    subst this; rfl
  · have : ch = Char.ofNat 12 := char_eq_ofNat ch 12 h6
    subst this; rfl
  · have : ch = Char.ofNat 13 := char_eq_ofNat ch 13 h7
    subst this; rfl
  · rw [List.cons_append, List.nil_append]
    simp only [readUnit]
    rw [if_neg h1, if_neg h2, if_pos (by omega : 32 ≤ ch.toNat)]
  · simp only [hex4, List.cons_append, List.append_assoc, List.nil_append]
    rw [readUnit_u4 (hexDigit (ch.toNat / 4096 % 16)) (hexDigit (ch.toNat / 256 % 16))
      (hexDigit (ch.toNat / 16 % 16)) (hexDigit (ch.toNat % 16)) r ch.toNat
      (hex4val_hex4 ch.toNat (by omega)) (by omega) (by omega)]
    rw [Char.ofNat_toNat]
  · simp only [hex4, List.cons_append, List.append_assoc, List.nil_append]
    rw [readUnit_surr6 (hexDigit ((55296 + (ch.toNat - 65536) / 1024) / 4096 % 16))
      (hexDigit ((55296 + (ch.toNat - 65536) / 1024) / 256 % 16))
      (hexDigit ((55296 + (ch.toNat - 65536) / 1024) / 16 % 16))
      (hexDigit ((55296 + (ch.toNat - 65536) / 1024) % 16)) '\\' 'u'
      (hexDigit ((56320 + (ch.toNat - 65536) % 1024) / 4096 % 16))
      (hexDigit ((56320 + (ch.toNat - 65536) % 1024) / 256 % 16))
      (hexDigit ((56320 + (ch.toNat - 65536) % 1024) / 16 % 16))
      (hexDigit ((56320 + (ch.toNat - 65536) % 1024) % 16)) r
      (55296 + (ch.toNat - 65536) / 1024) (56320 + (ch.toNat - 65536) % 1024)
      (hex4val_hex4 (55296 + (ch.toNat - 65536) / 1024) (by omega))
      (hex4val_hex4 (56320 + (ch.toNat - 65536) % 1024) (by omega))
      (by omega) (by omega)]
    rw [show 65536 + (55296 + (ch.toNat - 65536) / 1024 - 55296) * 1024 +
        (56320 + (ch.toNat - 65536) % 1024 - 56320) = ch.toNat from by omega]
    rw [Char.ofNat_toNat]

theorem readUnit_quote (r : List Char) : readUnit ('"' :: r) = some (none, r) := by
  simp [readUnit]

theorem parseJStrF_esc : ∀ (s : List Char) (fuel : Nat) (r : List Char),
    s.length + 1 ≤ fuel → parseJStrF fuel (jEscList s ++ '"' :: r) = some (s, r) := by
  intro s
  induction s with
  | nil =>
    intro fuel r hf
    match fuel, hf with
    | f + 1, _ =>
      rw [jEscList, List.nil_append]
      simp [parseJStrF, readUnit_quote]
  | cons c s ih =>
    intro fuel r hf
    match fuel, hf with
    | f + 1, hf =>
      rw [jEscList, List.append_assoc]
      simp only [parseJStrF]
      rw [readUnit_esc]
      simp only [Option.some_bind]
      rw [ih f r (by simp at hf ⊢; omega)]
      rfl

theorem jEscChar_length_pos (c : Char) : 1 ≤ (jEscChar c).length := by
  unfold jEscChar
  split_ifs <;> simp [hex4]

theorem jEscList_length_ge (s : List Char) : s.length ≤ (jEscList s).length := by
  induction s with
  | nil => simp [jEscList]
  | cons c t ih =>
    rw [jEscList]
    have := jEscChar_length_pos c
    simp only [List.length_append, List.length_cons]
    omega

theorem parseJStr_esc (s r : List Char) : parseJStr (jEscList s ++ '"' :: r) = some (s, r) := by
  unfold parseJStr
  apply parseJStrF_esc
  have := jEscList_length_ge s
  simp only [List.length_append, List.length_cons]
  omega

theorem stripPref_self : ∀ (p l : List Char), stripPref p (p ++ l) = some l := by
  intro p
  induction p with
  | nil => intro l; rfl
  | cons a ps ih => intro l; simp [stripPref, ih]

theorem parseMsg_dump (m : Msg) (rest : List Char) :
    parseMsg (dumpMsgChars m ++ rest) = some (m, rest) := by
  simp only [dumpMsgChars, List.append_assoc, List.singleton_append, List.cons_append,
    List.nil_append]
  unfold parseMsg
  rw [stripPref_self]
  simp only [Option.some_bind]
  rw [parseJStr_esc]
  simp only [Option.some_bind]
  rw [stripPref_self]
  simp only [Option.some_bind]
  rw [parseJStr_esc]
  simp only [Option.some_bind]

theorem parseMoreF_dump : ∀ (ms : List Msg) (fuel : Nat) (rest : List Char),
    ms.length + 1 ≤ fuel → parseMoreF fuel (tailDump ms ++ rest) = some (ms, rest) := by
  intro ms
  induction ms with
  | nil =>
    intro fuel rest hf
    match fuel, hf with
    | f + 1, _ =>
      rw [show tailDump [] ++ rest = ']' :: rest from rfl]
      rfl
  | cons m ms ih =>
    intro fuel rest hf
    match fuel, hf with
    | f + 1, hf =>
      simp only [tailDump, List.cons_append, List.append_assoc, List.nil_append]
      simp only [parseMoreF]
      rw [parseMsg_dump]
      simp only [Option.some_bind]
      rw [ih f rest (by simp at hf ⊢; omega)]
      rfl

theorem tailDump_length_ge (ms : List Msg) : ms.length + 1 ≤ (tailDump ms).length := by
  induction ms with
  | nil => simp [tailDump]
  | cons m t ih =>
    rw [tailDump]
    simp only [List.length_append, List.length_cons]
    simp at ih ⊢
    omega

theorem parseMore_dump (ms : List Msg) (rest : List Char) :
    parseMore (tailDump ms ++ rest) = some (ms, rest) := by
  unfold parseMore
  apply parseMoreF_dump
  have := tailDump_length_ge ms
  simp only [List.length_append]
  omega

theorem dumpMsg_head (m : Msg) (x : List Char) :
    dumpMsgChars m ++ x ≠ [']'] := by
  intro hEq
  have := congrArg List.length hEq
  simp [dumpMsgChars, kAuthor, kContent] at this

theorem jsonLoad_dump (l : List Msg) : jsonLoadMsgs (jsonDumpMsgs l) = some l := by
  cases l with
  | nil => rfl
  | cons m ms =>
    show jsonLoadMsgs ⟨dumpChars (m :: ms)⟩ = _
    rw [show jsonLoadMsgs ⟨dumpChars (m :: ms)⟩ = parseArr (dumpMsgChars m ++ tailDump ms)
      from rfl]
    unfold parseArr
    rw [if_neg (dumpMsg_head m (tailDump ms))]
    rw [parseMsg_dump]
    simp only [Option.some_bind]
    have hm := parseMore_dump ms []
    rw [List.append_nil] at hm
    rw [hm]
    simp only [Option.some_bind]
    rfl

theorem dropWhile_head_false (p : Char → Bool) (l : List Char)
    (h : ∀ c, l.head? = some c → p c = false) : l.dropWhile p = l := by
  cases l with
  | nil => rfl
  | cons a t => simp [List.dropWhile_cons, h a rfl]

theorem dropWhile_congr_mem (p p' : Char → Bool) (l : List Char)
    (h : ∀ c ∈ l, p c = p' c) : l.dropWhile p = l.dropWhile p' := by
  induction l with
  | cons a t ih =>
    rw [List.dropWhile_cons, List.dropWhile_cons, h a (List.mem_cons_self a t)]
    by_cases hpa : p' a
    · simp only [hpa, if_true]
      exact ih (fun c hc => h c (List.mem_cons_of_mem _ hc))
    · simp only [if_neg hpa]
  | nil => rfl

theorem stripCharsL_noop (cs : List Char) (l : List Char)
    (h1 : ∀ c, l.head? = some c → c ∉ cs) (h2 : ∀ c, l.getLast? = some c → c ∉ cs) :
    stripCharsL cs l = l := by
  unfold stripCharsL
  rw [dropWhile_head_false (fun c => decide (c ∈ cs)) l (fun c hc => by simpa using h1 c hc)]
  rw [dropWhile_head_false (fun c => decide (c ∈ cs)) l.reverse (fun c hc => by
    rw [List.head?_reverse] at hc
    simpa using h2 c hc)]
  exact List.reverse_reverse l

theorem stripCharsL_congr (cs cs' : List Char) (l : List Char)
    (h : ∀ c ∈ l, c ∈ cs ↔ c ∈ cs') : stripCharsL cs l = stripCharsL cs' l := by
  unfold stripCharsL
  rw [dropWhile_congr_mem (fun c => decide (c ∈ cs)) (fun c => decide (c ∈ cs')) l
    (fun c hc => by rw [decide_eq_decide]; exact h c hc)]
  rw [dropWhile_congr_mem (fun c => decide (c ∈ cs)) (fun c => decide (c ∈ cs'))
    (l.dropWhile (fun c => decide (c ∈ cs'))).reverse
    (fun c hc => by
      have hcl : c ∈ l := List.dropWhile_subset _ (List.mem_reverse.mp hc)
      rw [decide_eq_decide]
      exact h c hcl)]

theorem strip_delim (q : Char) (l : List Char) (h : q ∉ l) :
    stripCharsL [q] (q :: (l ++ [q])) = l := by
  cases l with
  | nil => simp [stripCharsL]
  | cons a t =>
    have haq : a ≠ q := by rintro rfl; exact h (List.mem_cons_self a t)
    have hlast : ∀ c, (a :: t).getLast? = some c → c ≠ q := by
      intro c hc hEq
      apply h
      rw [← hEq]
      have hm : c ∈ (a :: t).reverse := List.mem_of_mem_head? (by
        rw [List.head?_reverse, hc]; rfl)
      exact List.mem_reverse.mp hm
    unfold stripCharsL
    rw [show (a :: t) ++ [q] = a :: (t ++ [q]) from rfl]
    rw [List.dropWhile_cons]
    rw [if_pos (by simp)]
    rw [List.dropWhile_cons]
    rw [if_neg (by simp [haq])]
    rw [show (a :: (t ++ [q])).reverse = q :: (a :: t).reverse from by simp]
    rw [List.dropWhile_cons]
    rw [if_pos (by simp)]
    rw [dropWhile_head_false _ _ (fun c hc => by
      rw [List.head?_reverse] at hc
      simp [hlast c hc])]
    exact List.reverse_reverse _

theorem reprEscList_id (q : Char) (l : List Char)
    (hA : ∀ c ∈ l, 32 ≤ c.toNat ∧ c.toNat ≤ 126) (hB : '\\' ∉ l) (hq : q ∉ l) :
    reprEscList q l = l := by
  induction l with
  | nil => rfl
  | cons c t ih =>
    have h3 := hA c (List.mem_cons_self c t)
    have h1 : c ≠ '\\' := by rintro rfl; exact hB (List.mem_cons_self _ _)
    have h2 : c ≠ q := by rintro rfl; exact hq (List.mem_cons_self _ _)
    rw [reprEscList, reprEsc]
    rw [if_neg h1, if_neg h2, if_neg (by omega : ¬ c.toNat = 10),
        if_neg (by omega : ¬ c.toNat = 13), if_neg (by omega : ¬ c.toNat = 9), if_pos h3]
    rw [ih (fun x hx => hA x (List.mem_cons_of_mem _ hx))
        (fun hx => hB (List.mem_cons_of_mem _ hx)) (fun hx => hq (List.mem_cons_of_mem _ hx))]
    rfl

theorem extract_eq_spec (t : List Char)
    (hA : ∀ c ∈ t, 32 ≤ c.toNat ∧ c.toNat ≤ 126)
    (hB : '\\' ∉ t)
    (hC : ¬ ('\x27' ∈ t ∧ '"' ∈ t))
    (hD : '\x27' ∈ t → (t.head? ≠ some '\x27' ∧ t.getLast? ≠ some '\x27')) :
    stripCharsL ['"'] (stripCharsL ['\x27'] (pyReprL t)) = stripCharsL ['\x27', '"'] t := by
  by_cases hq : '\x27' ∈ t
  · have hnq : '"' ∉ t := fun hdq => hC ⟨hq, hdq⟩
    rw [pyReprL, if_pos ⟨hq, hnq⟩]
    rw [reprEscList_id '"' t hA hB hnq]
    rw [List.cons_append]
    rw [stripCharsL_noop ['\x27'] ('"' :: (t ++ ['"']))
      (by intro c hc; rw [List.head?_cons] at hc; cases hc; simp)
      (by
        intro c hc
        rw [show ('"' : Char) :: (t ++ ['"']) = ('"' :: t) ++ ['"'] from by simp] at hc
        rw [List.getLast?_concat] at hc
        cases hc
        simp)]
    rw [strip_delim '"' t hnq]
    rw [stripCharsL_noop ['\x27', '"'] t
      (by
        intro c hc
        have hct : c ∈ t := List.mem_of_mem_head? (by rw [hc]; rfl)
        have hc27 : c ≠ '\x27' := fun hEq => (hD hq).1 (hEq ▸ hc)
        have hcdq : c ≠ '"' := by rintro rfl; exact hnq hct
        simp [hc27, hcdq])
      (by
        intro c hc
        have hct : c ∈ t := by
          have hm : c ∈ t.reverse := List.mem_of_mem_head? (by
            rw [List.head?_reverse, hc]; rfl)
          exact List.mem_reverse.mp hm
        have hc27 : c ≠ '\x27' := fun hEq => (hD hq).2 (hEq ▸ hc)
        have hcdq : c ≠ '"' := by rintro rfl; exact hnq hct
        simp [hc27, hcdq])]
  · rw [pyReprL, if_neg (fun hand => hq hand.1)]
    rw [reprEscList_id '\x27' t hA hB hq]
    rw [List.cons_append]
    rw [strip_delim '\x27' t hq]
    exact stripCharsL_congr ['"'] ['\x27', '"'] t (fun c hc => by
      constructor
      · intro hm; simp at hm ⊢; tauto
      · intro hm
        simp at hm ⊢
        rcases hm with hm | hm
        · exact absurd (hm ▸ hc) hq
        · exact hm)

theorem betweenMarkers_whole (r : String) (hA : pySplit r "Action: " = [r])
    (hP : pySplit r "<< PAUSE >>" = [r]) : betweenMarkers r = r.data := by
  unfold betweenMarkers
  rw [hA]
  rw [show ([r] : List String).getLastD "" = r from by simp]
  rw [hP]
  rfl

theorem palmReact_noActionOk (chat : String → List Msg → String) (evalFn : String → EvalResult)
    (fs : Option String) (prompt : String) (h0 : List Msg) (e : PyExc)
    (hload : getMsgs fs = Except.ok h0)
    (heval : evalFn (extractCode (chat prompt h0)) = EvalResult.exc e)
    (he : e = PyExc.synError ∨ e = PyExc.nameError) :
    palmReact chat evalFn true fs prompt =
      Except.ok (answerOf (chat prompt h0),
        some (jsonDumpMsgs (h0 ++ [⟨"user", prompt⟩, ⟨"assistant", chat prompt h0⟩])),
        h0 ++ [⟨"user", prompt⟩, ⟨"assistant", chat prompt h0⟩]) := by
  rcases he with he | he <;> subst he <;>
    simp [palmReact, hload, heval, saveMsgs]

theorem palmReact_propagate (chat : String → List Msg → String) (evalFn : String → EvalResult)
    (writeOk : Bool) (fs : Option String) (prompt : String) (h0 : List Msg) (e : PyExc)
    (hload : getMsgs fs = Except.ok h0)
    (heval : evalFn (extractCode (chat prompt h0)) = EvalResult.exc e)
    (h1 : e ≠ PyExc.synError) (h2 : e ≠ PyExc.nameError) :
    palmReact chat evalFn writeOk fs prompt = Except.error e := by
  simp only [palmReact, hload, heval]

theorem palmReact_actionOk (chat : String → List Msg → String) (evalFn : String → EvalResult)
    (fs : Option String) (prompt : String) (h0 : List Msg) (obs : String)
    (hload : getMsgs fs = Except.ok h0)
    (heval : evalFn (extractCode (chat prompt h0)) = EvalResult.ok obs) :
    palmReact chat evalFn true fs prompt =
      Except.ok (answerOf (chat "Answer:" (h0 ++ [⟨"user", prompt⟩,
          ⟨"assistant", pauseTrace (chat prompt h0) obs⟩])),
        some (jsonDumpMsgs (h0 ++ [⟨"user", prompt⟩,
          ⟨"assistant", pauseTrace (chat prompt h0) obs⟩,
          ⟨"user", "Answer:"⟩,
          ⟨"assistant", chat "Answer:" (h0 ++ [⟨"user", prompt⟩,
            ⟨"assistant", pauseTrace (chat prompt h0) obs⟩])⟩])),
        h0 ++ [⟨"user", prompt⟩,
          ⟨"assistant", pauseTrace (chat prompt h0) obs⟩,
          ⟨"user", "Answer:"⟩,
          ⟨"assistant", chat "Answer:" (h0 ++ [⟨"user", prompt⟩,
            ⟨"assistant", pauseTrace (chat prompt h0) obs⟩])⟩]) := by
  simp [palmReact, hload, heval, saveMsgs]

theorem palmReact_noActionSaveFail (chat : String → List Msg → String)
    (evalFn : String → EvalResult) (fs : Option String) (prompt : String)
    (h0 : List Msg) (e : PyExc)
    (hload : getMsgs fs = Except.ok h0)
    (heval : evalFn (extractCode (chat prompt h0)) = EvalResult.exc e)
    (he : e = PyExc.synError ∨ e = PyExc.nameError) :
    palmReact chat evalFn false fs prompt = Except.error PyExc.osError := by
  rcases he with he | he <;> subst he <;>
    simp [palmReact, hload, heval, saveMsgs]

/-- C7: when no prior persisted conversation exists (the store's file is
missing), `get_msgs` returns the empty message sequence and does not raise
an error. -/
theorem C7_missing_file_load : getMsgs none = Except.ok ([] : List Msg) := rfl

/-- C8: writing any message sequence with `save_msgs` and re-reading it
with `get_msgs` yields exactly the same messages in the same order (load
after save is the identity on message sequences). -/
theorem C8_save_load_roundtrip (msgs : List Msg) :
    saveMsgs true msgs = Except.ok (some (jsonDumpMsgs msgs)) ∧
    getMsgs (some (jsonDumpMsgs msgs)) = Except.ok msgs := by
  refine ⟨rfl, ?_⟩
  simp only [getMsgs]
  rw [jsonLoad_dump]

/-- C9: for every state the store has persisted (the file written by
`save_msgs` for some message list), running `save(load())` with no
intervening mutation leaves the persisted bytes identical. -/
theorem C9_save_load_idempotent (msgs : List Msg) :
    (do
      let m ← getMsgs (some (jsonDumpMsgs msgs))
      saveMsgs true m) = Except.ok (some (jsonDumpMsgs msgs)) := by
  have h : getMsgs (some (jsonDumpMsgs msgs)) = Except.ok msgs := by
    simp only [getMsgs]
    rw [jsonLoad_dump]
  rw [show (do
      let m ← getMsgs (some (jsonDumpMsgs msgs))
      saveMsgs true m) = (getMsgs (some (jsonDumpMsgs msgs))).bind (saveMsgs true) from rfl]
  rw [h]
  rfl

/-- C5 (amended): `save_msgs` fully replaces the prior state, so the
persisted content depends only on the saved sequence and loads back to it;
but the write is a plain truncate-and-write on the target file, not an
atomic replace, so an interrupted write can leave a corrupt partial state
(see the counterexample). -/
theorem C5_full_replace (prior prior2 : Option String) (msgs : List Msg) :
    saveMsgsOn prior msgs = saveMsgsOn prior2 msgs ∧
    saveMsgsOn prior msgs = some (jsonDumpMsgs msgs) ∧
    getMsgs (saveMsgsOn prior msgs) = Except.ok msgs := by
  refine ⟨rfl, rfl, ?_⟩
  show getMsgs (some (jsonDumpMsgs msgs)) = Except.ok msgs
  simp only [getMsgs]
  rw [jsonLoad_dump]

/-- C5 (counterexample): interrupting the write of a one-message history
after a single character leaves the file holding `[`, which is not the
serialization of any message list; `get_msgs` then raises a decode error
instead of returning a sequence, so an interrupted write does leave a
corrupt partial state. -/
theorem C5_counterexample :
    savePartial [⟨"user", "hi"⟩] 1 = "[" ∧
    jsonLoadMsgs "[" = none ∧
    getMsgs (some "[") = Except.error PyExc.jsonDecodeError ∧
    getMsgs (some (jsonDumpMsgs [⟨"user", "hi"⟩])) = Except.ok [⟨"user", "hi"⟩] :=
  ⟨rfl, rfl, rfl, rfl⟩

/-- C6 (amended): when the Conversation Store write at the end of a turn
fails, the exception propagates out of `_palm_react` and aborts the turn;
no answer string is returned to the caller (the `save_msgs` call is not
wrapped in any try/except). -/
theorem C6_persist_failure_aborts (chat : String → List Msg → String)
    (evalFn : String → EvalResult) (fs : Option String) (prompt : String)
    (h0 : List Msg) (e : PyExc)
    (hload : getMsgs fs = Except.ok h0)
    (heval : evalFn (extractCode (chat prompt h0)) = EvalResult.exc e)
    (he : e = PyExc.synError ∨ e = PyExc.nameError) :
    palmReact chat evalFn false fs prompt = Except.error PyExc.osError :=
  palmReact_noActionSaveFail chat evalFn fs prompt h0 e hload heval he

theorem C6_witness :
    palmReact (fun _ _ => "Answer: Hello!") (fun _ => EvalResult.exc PyExc.synError)
      false none "hi" = Except.error PyExc.osError :=
  C6_persist_failure_aborts (fun _ _ => "Answer: Hello!")
    (fun _ => EvalResult.exc PyExc.synError) none "hi" [] PyExc.synError rfl rfl (Or.inl rfl)

/-- C6 (counterexample): a turn in which the model answers directly and
only the final file write fails ends in a raised `OSError`, not in the
answer `Goodbye!` reaching the caller — refuting the claim that a
persistence failure never aborts answer delivery. -/
theorem C6_counterexample :
    palmReact (fun _ _ => "Answer: Goodbye!") (fun _ => EvalResult.exc PyExc.synError)
      false none "bye now" = Except.error PyExc.osError ∧
    answerOf "Answer: Goodbye!" = "Goodbye!" :=
  ⟨rfl, rfl⟩

/-- C3 (amended): only `SyntaxError` and `NameError` raised while
evaluating the parsed action call are treated like parse failures; any
other exception — `TypeError` from malformed input, `AssertionError` or a
network failure from the underlying action, or anything else — propagates
out of `_palm_react`, the turn fails, and the caller receives no answer
string. -/
theorem C3_uncaught_exception_propagates (chat : String → List Msg → String)
    (evalFn : String → EvalResult) (writeOk : Bool) (fs : Option String)
    (prompt : String) (h0 : List Msg) (e : PyExc)
    (hload : getMsgs fs = Except.ok h0)
    (heval : evalFn (extractCode (chat prompt h0)) = EvalResult.exc e)
    (h1 : e ≠ PyExc.synError) (h2 : e ≠ PyExc.nameError) :
    palmReact chat evalFn writeOk fs prompt = Except.error e :=
  palmReact_propagate chat evalFn writeOk fs prompt h0 e hload heval h1 h2

theorem C3_witness :
    palmReact (fun _ _ => "Action: google_search(1,2,3,4,5) << PAUSE >>")
      (fun c => if c = "google_search(1,2,3,4,5)" then EvalResult.exc PyExc.typeError
        else EvalResult.exc PyExc.otherError)
      true none "search the web" = Except.error PyExc.typeError :=
  C3_uncaught_exception_propagates
    (fun _ _ => "Action: google_search(1,2,3,4,5) << PAUSE >>")
    (fun c => if c = "google_search(1,2,3,4,5)" then EvalResult.exc PyExc.typeError
      else EvalResult.exc PyExc.otherError)
    true none "search the web" [] PyExc.typeError rfl rfl (by decide) (by decide)

/-- C3 (counterexample): a registered action whose execution raises — here
`google_search`, whose `assert response.ok` raises `AssertionError` on a
failed request — is not treated like a parse failure: `_palm_react`
re-raises and the turn produces no answer, refuting the claim that every
execution error is absorbed into the no-action path. -/
theorem C3_counterexample :
    extractCode "Action: google_search(query=\x27rain\x27) << PAUSE >>" =
      "google_search(query=\x27rain\x27)" ∧
    "google_search" ∈ FUNCTIONS ∧
    palmReact (fun _ _ => "Action: google_search(query=\x27rain\x27) << PAUSE >>")
      (fun c => if c = "google_search(query=\x27rain\x27)" then EvalResult.exc PyExc.assertError
        else EvalResult.exc PyExc.synError)
      true none "will it rain" = Except.error PyExc.assertError :=
  ⟨rfl, by decide, rfl⟩

/-- C4 (amended): on the no-action path the turn's answer is the text
after the last `Answer:` marker of the original response `R1`,
whitespace-trimmed; when the marker is absent the whole trimmed response
is returned, not the empty string. -/
theorem C4_no_action_answer (chat : String → List Msg → String)
    (evalFn : String → EvalResult) (fs : Option String) (prompt : String)
    (h0 : List Msg) (e : PyExc)
    (hload : getMsgs fs = Except.ok h0)
    (heval : evalFn (extractCode (chat prompt h0)) = EvalResult.exc e)
    (he : e = PyExc.synError ∨ e = PyExc.nameError) :
    palmReact chat evalFn true fs prompt =
      Except.ok (answerOf (chat prompt h0),
        some (jsonDumpMsgs (h0 ++ [⟨"user", prompt⟩, ⟨"assistant", chat prompt h0⟩])),
        h0 ++ [⟨"user", prompt⟩, ⟨"assistant", chat prompt h0⟩]) ∧
    (pySplit (chat prompt h0) "Answer:" = [chat prompt h0] →
      answerOf (chat prompt h0) = ⟨pyStripL (chat prompt h0).data⟩) := by
  refine ⟨palmReact_noActionOk chat evalFn fs prompt h0 e hload heval he, ?_⟩
  intro habs
  unfold answerOf
  rw [habs]
  rw [show ([chat prompt h0] : List String).getLastD "" = chat prompt h0 from by simp]

theorem C4_witness :
    (palmReact (fun _ _ => "It is sunny.") (fun _ => EvalResult.exc PyExc.synError)
        true none "weather" =
      Except.ok ("It is sunny.",
        some (jsonDumpMsgs [⟨"user", "weather"⟩, ⟨"assistant", "It is sunny."⟩]),
        [⟨"user", "weather"⟩, ⟨"assistant", "It is sunny."⟩])) ∧
    (pySplit "It is sunny." "Answer:" = ["It is sunny."] →
      answerOf "It is sunny." = ⟨pyStripL "It is sunny.".data⟩) :=
  C4_no_action_answer (fun _ _ => "It is sunny.") (fun _ => EvalResult.exc PyExc.synError)
    none "weather" [] PyExc.synError rfl rfl (Or.inl rfl)

/-- C4 (counterexample): a no-action turn whose response holds no
`Answer:` marker returns the whole trimmed response — a non-empty string —
refuting the claim that the answer is the empty string when the marker is
absent. -/
theorem C4_counterexample :
    pySplit "It is sunny in Bengaluru." "Answer:" = ["It is sunny in Bengaluru."] ∧
    palmReact (fun _ _ => "It is sunny in Bengaluru.")
      (fun _ => EvalResult.exc PyExc.synError) true none "how is the weather" =
      Except.ok ("It is sunny in Bengaluru.",
        some (jsonDumpMsgs [⟨"user", "how is the weather"⟩,
          ⟨"assistant", "It is sunny in Bengaluru."⟩]),
        [⟨"user", "how is the weather"⟩, ⟨"assistant", "It is sunny in Bengaluru."⟩]) ∧
    "It is sunny in Bengaluru." ≠ "" :=
  ⟨rfl, rfl, by decide⟩

/-- C2 (amended): a response lacking both markers is not merely routed to
the no-action path — its entire text (whitespace-stripped and
repr-processed) is handed to `eval`; the no-action path is taken exactly
when that evaluation raises `SyntaxError` or `NameError`, which holds for
ordinary prose but not for a response that is itself a valid call. -/
theorem C2_no_marker_still_evals (chat : String → List Msg → String)
    (evalFn : String → EvalResult) (fs : Option String) (prompt : String)
    (h0 : List Msg) (r : String) (e : PyExc)
    (hload : getMsgs fs = Except.ok h0)
    (hresp : chat prompt h0 = r)
    (hA : pySplit r "Action: " = [r])
    (hP : pySplit r "<< PAUSE >>" = [r])
    (heval : evalFn (wholeCode r) = EvalResult.exc e)
    (he : e = PyExc.synError ∨ e = PyExc.nameError) :
    extractCode r = wholeCode r ∧
    palmReact chat evalFn true fs prompt =
      Except.ok (answerOf r,
        some (jsonDumpMsgs (h0 ++ [⟨"user", prompt⟩, ⟨"assistant", r⟩])),
        h0 ++ [⟨"user", prompt⟩, ⟨"assistant", r⟩]) := by
  have hcode : extractCode r = wholeCode r := by
    unfold extractCode wholeCode
    rw [betweenMarkers_whole r hA hP]
  refine ⟨hcode, ?_⟩
  subst hresp
  exact palmReact_noActionOk chat evalFn fs prompt h0 e hload
    (by rw [hcode]; exact heval) he

theorem C2_witness :
    extractCode "Answer: Hello there!" = wholeCode "Answer: Hello there!" ∧
    palmReact (fun _ _ => "Answer: Hello there!")
      (fun c => if c = "Answer: Hello there!" then EvalResult.exc PyExc.synError
        else EvalResult.exc PyExc.otherError)
      true none "greet me" =
      Except.ok ("Hello there!",
        some (jsonDumpMsgs [⟨"user", "greet me"⟩, ⟨"assistant", "Answer: Hello there!"⟩]),
        [⟨"user", "greet me"⟩, ⟨"assistant", "Answer: Hello there!"⟩]) :=
  C2_no_marker_still_evals (fun _ _ => "Answer: Hello there!")
    (fun c => if c = "Answer: Hello there!" then EvalResult.exc PyExc.synError
      else EvalResult.exc PyExc.otherError)
    none "greet me" [] "Answer: Hello there!" PyExc.synError rfl rfl rfl rfl rfl
    (Or.inl rfl)

/-- C2 (counterexample): a response with neither an `Action:` nor a
`<< PAUSE >>` marker that happens to be a call to the registered action
`google_search` is evaluated anyway; the controller takes the
successful-action path (observation recorded, second model call, four
messages appended), refuting the claim that marker-less responses never
invoke any registry action. -/
theorem C2_counterexample :
    pySplit "google_search(query=\x27x\x27)" "Action: " = ["google_search(query=\x27x\x27)"] ∧
    pySplit "google_search(query=\x27x\x27)" "<< PAUSE >>" =
      ["google_search(query=\x27x\x27)"] ∧
    "google_search" ∈ FUNCTIONS ∧
    extractCode "google_search(query=\x27x\x27)" = "google_search(query=\x27x\x27)" ∧
    palmReact
      (fun p _ => if p = "Answer:" then "Answer: No results." else "google_search(query=\x27x\x27)")
      (fun c => if c = "google_search(query=\x27x\x27)" then
          EvalResult.ok "\x7b\x27results\x27: []\x7d"
        else EvalResult.exc PyExc.synError)
      true none "who won" =
      Except.ok ("No results.",
        some (jsonDumpMsgs [⟨"user", "who won"⟩,
          ⟨"assistant",
            "google_search(query=\x27x\x27)\n<< PAUSE >>\nObservation: \x7b\x27results\x27: []\x7d"⟩,
          ⟨"user", "Answer:"⟩, ⟨"assistant", "Answer: No results."⟩]),
        [⟨"user", "who won"⟩,
          ⟨"assistant",
            "google_search(query=\x27x\x27)\n<< PAUSE >>\nObservation: \x7b\x27results\x27: []\x7d"⟩,
          ⟨"user", "Answer:"⟩, ⟨"assistant", "Answer: No results."⟩]) :=
  ⟨rfl, rfl, by decide, rfl, rfl⟩

/-- C1 (amended): for responses whose between-marker text, after
whitespace trimming, is printable ASCII free of backslashes, does not
contain both quote kinds, and does not begin or end with a single quote
when it contains one, the extractor returns exactly the specification's
value: the text between the last `Action: ` and the following first
`<< PAUSE >>`, trimmed of surrounding whitespace and quote characters and
otherwise character-for-character identical. -/
theorem C1_extract_matches_spec (r : String)
    (hA : ∀ c ∈ pyStripL (betweenMarkers r), 32 ≤ c.toNat ∧ c.toNat ≤ 126)
    (hB : '\\' ∉ pyStripL (betweenMarkers r))
    (hC : ¬ ('\x27' ∈ pyStripL (betweenMarkers r) ∧ '"' ∈ pyStripL (betweenMarkers r)))
    (hD : '\x27' ∈ pyStripL (betweenMarkers r) →
      ((pyStripL (betweenMarkers r)).head? ≠ some '\x27' ∧
       (pyStripL (betweenMarkers r)).getLast? ≠ some '\x27')) :
    extractCode r = specExtract r := by
  unfold extractCode specExtract
  exact congrArg String.mk (extract_eq_spec (pyStripL (betweenMarkers r)) hA hB hC hD)

theorem C1_witness :
    extractCode "Action: google_search(query=\x27x\x27) << PAUSE >>" =
      specExtract "Action: google_search(query=\x27x\x27) << PAUSE >>" :=
  C1_extract_matches_spec "Action: google_search(query=\x27x\x27) << PAUSE >>"
    (by decide) (by decide) (by decide) (by decide)

/-- C1 (counterexample): when the between-marker text holds both a double
and a single quote, the `repr` round trip of lines 260-261 inserts escape
backslashes, so the extracted call text is not character-for-character the
between-marker text with only surrounding whitespace and quotes removed. -/
theorem C1_counterexample :
    extractCode "Action: f(\"a\", \x27b\x27) << PAUSE >>" = "f(\"a\", \\\x27b\\\x27)" ∧
    specExtract "Action: f(\"a\", \x27b\x27) << PAUSE >>" = "f(\"a\", \x27b\x27)" ∧
    extractCode "Action: f(\"a\", \x27b\x27) << PAUSE >>" ≠
      specExtract "Action: f(\"a\", \x27b\x27) << PAUSE >>" :=
  ⟨rfl, rfl, by decide⟩

theorem palmReact_actionSaveFail (chat : String → List Msg → String)
    (evalFn : String → EvalResult) (fs : Option String) (prompt : String)
    (h0 : List Msg) (obs : String)
    (hload : getMsgs fs = Except.ok h0)
    (heval : evalFn (extractCode (chat prompt h0)) = EvalResult.ok obs) :
    palmReact chat evalFn false fs prompt = Except.error PyExc.osError := by
  simp [palmReact, hload, heval, saveMsgs]

/-- C10: a turn that completes normally persists exactly the loaded
history followed by two new messages on the no-action path (the user
prompt, then the raw assistant response) or four on the successful-action
path (the user prompt, the assistant Thought/Action text with the
Observation line, the user message `Answer:`, then the second assistant
response); the appended authors alternate user/assistant, and the
persisted file is exactly the serialization of that history. -/
theorem C10_frame (chat : String → List Msg → String) (evalFn : String → EvalResult)
    (writeOk : Bool) (fs : Option String) (prompt : String) (h0 : List Msg)
    (ans : String) (fs2 : Option String) (hist : List Msg)
    (hload : getMsgs fs = Except.ok h0)
    (hrun : palmReact chat evalFn writeOk fs prompt = Except.ok (ans, fs2, hist)) :
    (hist = h0 ++ [⟨"user", prompt⟩, ⟨"assistant", chat prompt h0⟩] ∨
     hist = h0 ++ [⟨"user", prompt⟩,
       ⟨"assistant", pauseTrace (chat prompt h0)
         (obsOf (evalFn (extractCode (chat prompt h0))))⟩,
       ⟨"user", "Answer:"⟩,
       ⟨"assistant", chat "Answer:" (h0 ++ [⟨"user", prompt⟩,
         ⟨"assistant", pauseTrace (chat prompt h0)
           (obsOf (evalFn (extractCode (chat prompt h0))))⟩])⟩]) ∧
    fs2 = some (jsonDumpMsgs hist) := by
  cases hres : evalFn (extractCode (chat prompt h0)) with
  | ok obs =>
    cases writeOk with
    | false =>
      rw [palmReact_actionSaveFail chat evalFn fs prompt h0 obs hload hres] at hrun
      cases hrun
    | true =>
      rw [palmReact_actionOk chat evalFn fs prompt h0 obs hload hres] at hrun
      simp only [Except.ok.injEq, Prod.mk.injEq] at hrun
      obtain ⟨ha, hf, hh⟩ := hrun
      subst hh
      exact ⟨Or.inr rfl, hf.symm⟩
  | exc e =>
    have hcase : e = PyExc.synError ∨ e = PyExc.nameError ∨
        (e ≠ PyExc.synError ∧ e ≠ PyExc.nameError) := by
      cases e <;> simp
    rcases hcase with he | he | ⟨h1, h2⟩
    · subst he
      cases writeOk with
      | false =>
        rw [palmReact_noActionSaveFail chat evalFn fs prompt h0 _ hload hres
          (Or.inl rfl)] at hrun
        cases hrun
      | true =>
        rw [palmReact_noActionOk chat evalFn fs prompt h0 _ hload hres (Or.inl rfl)] at hrun
        simp only [Except.ok.injEq, Prod.mk.injEq] at hrun
        obtain ⟨ha, hf, hh⟩ := hrun
        subst hh
        exact ⟨Or.inl rfl, hf.symm⟩
    · subst he
      cases writeOk with
      | false =>
        rw [palmReact_noActionSaveFail chat evalFn fs prompt h0 _ hload hres
          (Or.inr rfl)] at hrun
        cases hrun
      | true =>
        rw [palmReact_noActionOk chat evalFn fs prompt h0 _ hload hres (Or.inr rfl)] at hrun
        simp only [Except.ok.injEq, Prod.mk.injEq] at hrun
        obtain ⟨ha, hf, hh⟩ := hrun
        subst hh
        exact ⟨Or.inl rfl, hf.symm⟩
    · rw [palmReact_propagate chat evalFn writeOk fs prompt h0 e hload hres h1 h2] at hrun
      cases hrun

theorem C10_witness :
    (([⟨"user", "hi"⟩, ⟨"assistant", "Answer: Hello!"⟩] : List Msg) =
        [] ++ [⟨"user", "hi"⟩, ⟨"assistant", "Answer: Hello!"⟩] ∨
      ([⟨"user", "hi"⟩, ⟨"assistant", "Answer: Hello!"⟩] : List Msg) =
        [] ++ [⟨"user", "hi"⟩, ⟨"assistant", pauseTrace "Answer: Hello!" ""⟩,
          ⟨"user", "Answer:"⟩, ⟨"assistant", "Answer: Hello!"⟩]) ∧
    some (jsonDumpMsgs [⟨"user", "hi"⟩, ⟨"assistant", "Answer: Hello!"⟩]) =
      some (jsonDumpMsgs [⟨"user", "hi"⟩, ⟨"assistant", "Answer: Hello!"⟩]) :=
  C10_frame (fun _ _ => "Answer: Hello!") (fun _ => EvalResult.exc PyExc.synError) true none
    "hi" [] "Hello!" (some (jsonDumpMsgs [⟨"user", "hi"⟩, ⟨"assistant", "Answer: Hello!"⟩]))
    [⟨"user", "hi"⟩, ⟨"assistant", "Answer: Hello!"⟩] rfl rfl
